import Mathlib

/-!
Shallow embedding of the school-scraper repository: the listing crawler
(pagination loop, per-page row extraction with url deduplication and
stale-element retry, bounded-retry next-page clicks) and the enrichment
pass (skip on complete data, merge of scraped phone/website candidates,
checkpoint cadence), together with the run-level error handling of both
pipelines.  Each definition is translated from the Python source files
under src/ (src/school_scraper.py, src/scrapers/texas.py,
src/enrich_school_dataset.py, src/base/base_scraper.py); browser and
filesystem interactions are replaced by explicit environment oracles.
-/

/-- A pandas cell value for the optional contact fields.  `nan` stands
for both Python `None` and pandas NaN: these are exactly the values on
which `pd.isna` is true.  `str s` is a string cell (possibly the empty
string, on which `pd.isna` is false). -/
inductive FieldVal where
  | nan : FieldVal
  | str : String → FieldVal
deriving DecidableEq, Repr

/-- The `pd.isna` test on a contact-field cell. -/
def FieldVal.isna : FieldVal → Bool
  | .nan => true
  | .str _ => false

/-- One school record, with the fields built by
`TexasSchoolScraper._process_current_page` (src/scrapers/texas.py lines
53-62; identically src/school_scraper.py lines 129-138). -/
structure Record where
  name : String
  url : String
  district : String
  address : String
  grades : String
  phone : FieldVal
  website : FieldVal
  page_number : Nat
deriving DecidableEq, Repr

/-- Merge of one scraped candidate value into one existing field, from
`SchoolEnricher.process_school` (src/enrich_school_dataset.py lines
110-115) and equivalently the loop of
`BaseSchoolEnricher.process_school` (src/base/base_scraper.py lines
139-141): the candidate is written only when it is Python-truthy (not
`None`, not the empty string) and the existing cell is `pd.isna`. -/
def mergeField (existing : FieldVal) (cand : Option String) : FieldVal :=
  match cand with
  | none => existing
  | some s => if s != "" && existing.isna then FieldVal.str s else existing

/-- `TexasSchoolEnricher.has_complete_data` (src/scrapers/texas.py lines
141-143): `pd.notna(row["phone"]) and pd.notna(row["website"])`.  The
inline skip test of src/enrich_school_dataset.py line 101 is the same
condition. -/
def has_complete_data (r : Record) : Bool :=
  !r.phone.isna && !r.website.isna

/-- Observable side effects of processing one record in the enrichment
pass: a `driver.get` navigation and a detail-page extraction. -/
inductive Effect where
  | navigate : String → Effect
  | extractData : Effect
deriving DecidableEq, Repr

/-- `process_school` (src/enrich_school_dataset.py lines 95-124,
src/base/base_scraper.py lines 123-150).  `scraped` is the oracle for
the `(phone, website)` pair that `extract_phone_website` returns after
navigating to `r.url`.  The second component is the list of effects
performed: on the complete-data skip path the record is returned as is
and nothing is navigated or extracted. -/
def process_school (r : Record) (scraped : Option String × Option String) :
    Record × List Effect :=
  if has_complete_data r then (r, [])
  else
    ({ r with
        phone := mergeField r.phone scraped.1,
        website := mergeField r.website scraped.2 },
      [Effect.navigate r.url, Effect.extractData])

/-- The per-record loop of the enrichment `run`
(src/enrich_school_dataset.py lines 147-154, src/base/base_scraper.py
lines 176-183): the record at 0-based `iterrows` index `i` is processed
with the scrape oracle at `i`, and an intermediate checkpoint flush is
issued after position `i + 1` exactly when `(index + 1) % 50 == 0`.
Returns the updated records together with the 1-indexed flush positions
in order. -/
def enrichLoop (oracle : Nat → Option String × Option String) :
    List Record → Nat → List Record × List Nat
  | [], _ => ([], [])
  | r :: rs, i =>
    let r' := (process_school r (oracle i)).1
    let rest := enrichLoop oracle rs (i + 1)
    (r' :: rest.1, (if (i + 1) % 50 == 0 then [i + 1] else []) ++ rest.2)

/-- The whole enrichment pass over a loaded record list, starting at
`iterrows` index 0. -/
def enrichRun (records : List Record)
    (oracle : Nat → Option String × Option String) : List Record × List Nat :=
  enrichLoop oracle records 0

/-- The data successfully read from one listing-table row (the five
values extracted in src/scrapers/texas.py lines 48-58). -/
structure Row where
  name : String
  url : String
  district : String
  address : String
  grades : String
deriving DecidableEq, Repr

/-- The scraper's mutable state: `self.schools_data`,
`self.processed_urls` and `self.current_page`
(src/base/base_scraper.py lines 83-85, src/school_scraper.py lines
29-50). -/
structure ScrapeState where
  schools_data : List Record
  processed_urls : List String
  current_page : Nat
deriving DecidableEq, Repr

/-- The scraper's initial state: no records, no processed urls,
`current_page = 1`. -/
def initState : ScrapeState :=
  { schools_data := [], processed_urls := [], current_page := 1 }

/-- The record dictionary appended for a fresh row
(src/scrapers/texas.py lines 53-62): contact fields are set to `None`
and `page_number` to the current page cursor. -/
def mkRecord (row : Row) (page : Nat) : Record :=
  { name := row.name, url := row.url, district := row.district,
    address := row.address, grades := row.grades,
    phone := FieldVal.nan, website := FieldVal.nan, page_number := page }

/-- The body of the row loop of `_process_current_page` for a row whose
fields were read successfully (src/scrapers/texas.py lines 48-66): skip
if the url was already processed, otherwise append a new record and mark
the url as processed. -/
def processRow (st : ScrapeState) (row : Row) : ScrapeState :=
  if row.url ∈ st.processed_urls then st
  else
    { st with
        schools_data := st.schools_data ++ [mkRecord row st.current_page],
        processed_urls := st.processed_urls ++ [row.url] }

/-- Outcome of attempting to read one row element: the fields were read
(`ok`), a `StaleElementReferenceException` occurred (`stale`), or some
other exception occurred and the row is dropped after logging
(`rowErr`). -/
inductive RowRes where
  | ok : Row → RowRes
  | stale : RowRes
  | rowErr : RowRes
deriving DecidableEq, Repr

/-- One pass over the row outcomes of a single `find_elements` snapshot
(the `for row in rows` loop of `_process_current_page`): `ok` rows are
appended via `processRow`, `rowErr` rows are logged and skipped, and the
first `stale` outcome aborts the remaining rows of this snapshot.  The
Boolean reports whether a stale condition was hit. -/
def runRows : ScrapeState → List RowRes → ScrapeState × Bool
  | st, [] => (st, false)
  | st, RowRes.ok row :: rs => runRows (processRow st row) rs
  | st, RowRes.rowErr :: rs => runRows st rs
  | st, RowRes.stale :: _ => (st, true)

/-- `_process_current_page` with its stale-element recovery
(src/scrapers/texas.py lines 42-72, src/school_scraper.py lines
116-149): each element of `entries` is the row-outcome list seen by one
entry into the method (one `find_elements` read).  On a stale condition
the method calls itself recursively, consuming the next snapshot; the
returned number counts these recursive re-entries.  The snapshot list is
finite, so the model stops (without re-entering) when a stale condition
occurs and no further snapshot is supplied. -/
def runSnapshots : ScrapeState → List (List RowRes) → ScrapeState × Nat
  | st, [] => (st, 0)
  | st, e :: es =>
    let p := runRows st e
    if p.2 then
      match es with
      | [] => (p.1, 0)
      | e' :: es' =>
        let q := runSnapshots p.1 (e' :: es')
        (q.1, q.2 + 1)
    else (p.1, 0)

/-- One call of `_process_current_page`, driven by the successive
`find_elements` snapshots in `entries`. -/
def process_current_page (st : ScrapeState) (entries : List (List RowRes)) :
    ScrapeState × Nat :=
  runSnapshots st entries

/-- An environment in which stale conditions occur on `n` successive
entries into `_process_current_page`, after which a snapshot with no
rows is seen. -/
def staleEntries (n : Nat) : List (List RowRes) :=
  List.replicate n [RowRes.stale] ++ [[]]

/-- Result of `_click_with_retry` (src/scrapers/texas.py lines 74-95,
src/school_scraper.py lines 151-173): `success sleeps` is the `return
True` path, `exhausted sleeps` is the `raise e` path on the final failed
attempt, and `fellThrough` is the implicit `return None` when the `for
attempt in range(max_retries)` loop has zero iterations.  `sleeps`
counts the `time.sleep(1)` backoffs executed (one after each non-final
failed attempt). -/
inductive ClickRes where
  | success : Nat → ClickRes
  | exhausted : Nat → ClickRes
  | fellThrough : Nat → ClickRes
deriving DecidableEq, Repr

/-- The attempt loop of `_click_with_retry`: `outcome i` tells whether
the click on attempt `i` (0-based) succeeds; `remaining` is the number
of attempts still allowed. -/
def clickGo (outcome : Nat → Bool) : Nat → Nat → Nat → ClickRes
  | _, sleeps, 0 => ClickRes.fellThrough sleeps
  | attempt, sleeps, remaining + 1 =>
    if outcome attempt then ClickRes.success sleeps
    else if remaining == 0 then ClickRes.exhausted sleeps
    else clickGo outcome (attempt + 1) (sleeps + 1) remaining

/-- `_click_with_retry(element, max_retries)`. -/
def click_with_retry (outcome : Nat → Bool) (max_retries : Nat) : ClickRes :=
  clickGo outcome 0 0 max_retries

/-- State of the next-page button as observed by the pagination loop:
the clickable-wait returned `None` (`absent`), the button carries the
`disabled` class token, or it is enabled. -/
inductive NextBtn where
  | absent : NextBtn
  | disabled : NextBtn
  | enabled : NextBtn
deriving DecidableEq, Repr

/-- The environment one iteration of `get_table_data` interacts with:
whether the initial row-presence wait finds an element within its
timeout (`rowsAppear`; the call's return value is discarded by the
code), the `find_elements` snapshots consumed by
`_process_current_page`, the next-button state, and the per-attempt
click outcomes for `_click_with_retry`. -/
structure IterEnv where
  rowsAppear : Bool
  entries : List (List RowRes)
  next : NextBtn
  click : Nat → Bool

/-- The externally visible steps of one pagination iteration. -/
inductive CrawlAct where
  | waitRows : Bool → CrawlAct
  | extractPage : CrawlAct
  | checkNext : CrawlAct
  | clickNext : CrawlAct
  | incPage : CrawlAct
deriving DecidableEq, Repr

/-- How the `while True` loop of `get_table_data` ended: the
next-button break (`lastPage`), the `except Exception` handler that logs
and breaks (`caughtError`), an exception re-raised out of the method
(`propagated`; no path of the code produces this), or the supplied
environment list ran out (`fuelOut`). -/
inductive LoopExit where
  | lastPage : LoopExit
  | caughtError : LoopExit
  | propagated : LoopExit
  | fuelOut : LoopExit
deriving DecidableEq, Repr

/-- `get_table_data` (src/scrapers/texas.py lines 97-122,
src/school_scraper.py lines 84-114): each iteration waits for a row
(result discarded), runs `_process_current_page`, checks the next-page
button, and either breaks (absent/disabled button), advances via
`_click_with_retry` and increments `current_page`, or catches the
exhaustion exception in the `except` handler, logs, and breaks.  Returns
the final state, the trace of actions, and how the loop ended. -/
def get_table_data : ScrapeState → List IterEnv → ScrapeState × List CrawlAct × LoopExit
  | st, [] => (st, [], LoopExit.fuelOut)
  | st, env :: rest =>
    let st1 := (process_current_page st env.entries).1
    match env.next with
    | NextBtn.absent =>
      (st1, [CrawlAct.waitRows env.rowsAppear, CrawlAct.extractPage, CrawlAct.checkNext],
        LoopExit.lastPage)
    | NextBtn.disabled =>
      (st1, [CrawlAct.waitRows env.rowsAppear, CrawlAct.extractPage, CrawlAct.checkNext],
        LoopExit.lastPage)
    | NextBtn.enabled =>
      match click_with_retry env.click 3 with
      | ClickRes.exhausted _ =>
        (st1, [CrawlAct.waitRows env.rowsAppear, CrawlAct.extractPage, CrawlAct.checkNext,
          CrawlAct.clickNext], LoopExit.caughtError)
      | _ =>
        let st2 := { st1 with current_page := st1.current_page + 1 }
        let r := get_table_data st2 rest
        (r.1, [CrawlAct.waitRows env.rowsAppear, CrawlAct.extractPage, CrawlAct.checkNext,
          CrawlAct.clickNext, CrawlAct.incPage] ++ r.2.1, r.2.2)

/-- Number of `current_page` increments recorded in a trace. -/
def countInc : List CrawlAct → Nat
  | [] => 0
  | CrawlAct.incPage :: t => countInc t + 1
  | _ :: t => countInc t

/-- The `current_page += 1` advance between pages. -/
def advanceCursor (st : ScrapeState) : ScrapeState :=
  { st with current_page := st.current_page + 1 }

/-- The pagination loop restricted to the page-extraction step: each
page is one list of successfully read rows (a single clean
`find_elements` snapshot), and the cursor advances by one after each
page, as in `get_table_data`. -/
def runPagesClean : ScrapeState → List (List Row) → ScrapeState
  | st, [] => st
  | st, p :: ps =>
    runPagesClean (advanceCursor (process_current_page st [p.map RowRes.ok]).1) ps

/-- The 1-indexed page (counting from `k` for the head of `pages`) on
which a url first occurs in the fed row sequence, if it occurs at
all. -/
def firstPage (pages : List (List Row)) (u : String) (k : Nat) : Option Nat :=
  match pages with
  | [] => none
  | p :: ps => if u ∈ p.map Row.url then some k else firstPage ps u (k + 1)

/-- The two failure kinds named by the run-level error handling. -/
inductive RunErr where
  | sessionStart : RunErr
  | csvLoad : RunErr
deriving DecidableEq, Repr

/-- Observable outcome of a whole pipeline run: the error surfaced to
the caller (if any), whether the `finally` teardown block executed, and
whether a live session remains open at exit. -/
structure RunResult where
  err : Option RunErr
  finallyRan : Bool
  sessionOpen : Bool
deriving DecidableEq, Repr

/-- `TexasSchoolScraper.run` (src/scrapers/texas.py lines 124-135; the
legacy `SchoolScraper.run`, src/school_scraper.py lines 183-193, is
identical): everything, including a `setup_driver` failure, is caught by
`except Exception` and logged, never re-raised; `cleanup` runs in the
`finally` block on every path. -/
def scraperRun (setupOk : Bool) (envs : List IterEnv) : ScrapeState × RunResult :=
  if setupOk then
    ((get_table_data initState envs).1,
      { err := none, finallyRan := true, sessionOpen := false })
  else
    (initState, { err := none, finallyRan := true, sessionOpen := false })

/-- `SchoolEnricher.run` (src/enrich_school_dataset.py lines 130-179;
`BaseSchoolEnricher.run`, src/base/base_scraper.py lines 161-196, is
identical): the CSV is loaded first, then the driver is started, then
every record is processed; any exception is logged and re-raised, and
the `finally` block always runs (`driver.quit` only if a driver was
created, so no session is ever left open). -/
def enricherRun (csvOk setupOk : Bool) (records : List Record)
    (oracle : Nat → Option String × Option String) :
    Option (List Record) × RunResult :=
  if csvOk = false then
    (none, { err := some RunErr.csvLoad, finallyRan := true, sessionOpen := false })
  else if setupOk = false then
    (none, { err := some RunErr.sessionStart, finallyRan := true, sessionOpen := false })
  else
    (some (enrichRun records oracle).1,
      { err := none, finallyRan := true, sessionOpen := false })

/-- Crawl-state well-formedness: stored urls are pairwise distinct and
every stored url has been marked processed. -/
def GoodState (st : ScrapeState) : Prop :=
  (st.schools_data.map Record.url).Nodup ∧
  ∀ r ∈ st.schools_data, r.url ∈ st.processed_urls

/-- Every stored record has both contact fields absent. -/
def NanFields (st : ScrapeState) : Prop :=
  ∀ r ∈ st.schools_data, r.phone = FieldVal.nan ∧ r.website = FieldVal.nan

/-- Concrete row used in witnesses. -/
def rowA : Row :=
  { name := "Alpha", url := "uA", district := "dA", address := "aA", grades := "gA" }

/-- Concrete row used in witnesses. -/
def rowB : Row :=
  { name := "Beta", url := "uB", district := "dB", address := "aB", grades := "gB" }

/-- Concrete row used in witnesses. -/
def rowC : Row :=
  { name := "Gamma", url := "uC", district := "dC", address := "aC", grades := "gC" }

/-- The spec scenario feed: two pages of two rows each, the second
page's first row duplicating the first page's second row by url. -/
def pagesW : List (List Row) :=
  [[rowA, rowB], [rowB, rowC]]

/-- A state that has already processed `rowB`'s url. -/
def stSeen : ScrapeState :=
  { schools_data := [mkRecord rowB 1], processed_urls := ["uB"], current_page := 2 }

/-- An iteration on which the row-presence wait times out but the page
still has a readable row and an enabled, immediately clickable
next-page button. -/
def envNoRows : IterEnv :=
  { rowsAppear := false, entries := [[RowRes.ok rowA]], next := NextBtn.enabled,
    click := fun _ => true }

/-- An iteration whose next-page click fails on every attempt. -/
def envFail : IterEnv :=
  { rowsAppear := true, entries := [], next := NextBtn.enabled,
    click := fun _ => false }

/-- An iteration that reads one row and then finds no next-page
button. -/
def envLast : IterEnv :=
  { rowsAppear := true, entries := [[RowRes.ok rowA]], next := NextBtn.absent,
    click := fun _ => false }

/-- Record with a populated phone and an absent website. -/
def recP : Record :=
  { name := "S", url := "u", district := "d", address := "a", grades := "g",
    phone := FieldVal.str "111", website := FieldVal.nan, page_number := 1 }

/-- Record with both contact fields populated. -/
def recC : Record :=
  { name := "S", url := "u", district := "d", address := "a", grades := "g",
    phone := FieldVal.str "111", website := FieldVal.str "w", page_number := 1 }

/-- Record whose phone holds the empty string and whose website is
absent. -/
def recE : Record :=
  { name := "S", url := "u", district := "d", address := "a", grades := "g",
    phone := FieldVal.str "", website := FieldVal.nan, page_number := 1 }

/-- A candidate is never merged over a field on which `pd.isna` is
false. -/
theorem mergeField_of_populated (e : FieldVal) (c : Option String)
    (h : e.isna = false) : mergeField e c = e := by
  cases c with
  | none => rfl
  | some s => simp [mergeField, h]

/-- If the merge changed a field, the candidate was a non-empty string
and the field was absent, and the new value is the candidate. -/
theorem mergeField_changed (e : FieldVal) (c : Option String)
    (h : mergeField e c ≠ e) :
    ∃ s, c = some s ∧ s ≠ "" ∧ e.isna = true ∧ mergeField e c = FieldVal.str s := by
  cases c with
  | none => simp [mergeField] at h
  | some s =>
    by_cases hs : (s != "" && e.isna) = true
    · have hs' := hs
      simp only [Bool.and_eq_true, bne_iff_ne, ne_eq] at hs'
      exact ⟨s, rfl, hs'.1, hs'.2, by simp [mergeField, hs]⟩
    · exact absurd (by simp [mergeField, hs] : mergeField e (some s) = e) h

/-- C1: the enrichment merge writes a candidate into a contact field
only when the candidate is non-empty and the existing field is currently
absent; a populated (non-isna) field is returned unchanged by
`process_school` whatever the candidate contains. -/
theorem merge_never_overwrites (r : Record)
    (scraped : Option String × Option String) :
    (r.phone.isna = false → (process_school r scraped).1.phone = r.phone) ∧
    (r.website.isna = false → (process_school r scraped).1.website = r.website) ∧
    ((process_school r scraped).1.phone ≠ r.phone →
      ∃ s, scraped.1 = some s ∧ s ≠ "" ∧ r.phone.isna = true ∧
        (process_school r scraped).1.phone = FieldVal.str s) ∧
    ((process_school r scraped).1.website ≠ r.website →
      ∃ s, scraped.2 = some s ∧ s ≠ "" ∧ r.website.isna = true ∧
        (process_school r scraped).1.website = FieldVal.str s) := by
  by_cases hc : has_complete_data r = true
  · simp [process_school, hc]
  · simp only [process_school, hc, if_false, Bool.not_eq_true] at *
    refine ⟨fun h => ?_, fun h => ?_, fun h => ?_, fun h => ?_⟩
    · exact mergeField_of_populated _ _ h
    · exact mergeField_of_populated _ _ h
    · exact mergeField_changed _ _ h
    · exact mergeField_changed _ _ h

/-- Witness for C1 at a concrete record: a populated phone survives a
differing non-empty candidate. -/
theorem merge_never_overwrites_witness :
    (process_school recP (some "222", some "w")).1.phone = recP.phone :=
  (merge_never_overwrites recP (some "222", some "w")).1 (by decide)

/-- C8: a record with complete data is returned unchanged and no
navigation or extraction effect is performed. -/
theorem complete_data_skip (r : Record)
    (scraped : Option String × Option String)
    (h : has_complete_data r = true) :
    process_school r scraped = (r, []) := by
  simp [process_school, h]

/-- Witness for C8 at a concrete complete record. -/
theorem complete_data_skip_witness :
    process_school recC (some "x", some "y") = (recC, []) :=
  complete_data_skip recC (some "x", some "y") (by decide)

/-- C9 counterexample: a field holding the empty string is not treated
as absent by the merge.  With phone `""` and scraped candidate `"555"`,
the merged phone stays `""` rather than becoming `"555"`. -/
theorem empty_string_absent_counterexample :
    ¬ ∀ (r : Record) (scraped : Option String × Option String) (s : String),
      r.phone = FieldVal.str "" → scraped.1 = some s → s ≠ "" →
      (process_school r scraped).1.phone = FieldVal.str s := by
  intro h
  have h2 := h recE (some "555", none) "555" rfl rfl (by decide)
  exact absurd h2 (by decide)

/-- C9 amended: the merge treats only isna cells (None/NaN) as absent;
a contact field holding the empty string is kept as the empty string and
any scraped candidate for it is dropped. -/
theorem empty_string_field_kept (r : Record)
    (scraped : Option String × Option String) :
    (r.phone = FieldVal.str "" →
      (process_school r scraped).1.phone = FieldVal.str "") ∧
    (r.website = FieldVal.str "" →
      (process_school r scraped).1.website = FieldVal.str "") := by
  have hp : ∀ c, mergeField (FieldVal.str "") c = FieldVal.str "" := fun c =>
    mergeField_of_populated (FieldVal.str "") c rfl
  by_cases hc : has_complete_data r = true
  · constructor <;> intro h <;> simp [process_school, hc, h]
  · constructor <;> intro h <;> simp [process_school, hc, h, hp]

/-- Witness for the amended C9 at the concrete empty-string record. -/
theorem empty_string_field_kept_witness :
    (process_school recE (some "555", none)).1.phone = FieldVal.str "" :=
  (empty_string_field_kept recE (some "555", none)).1 (by decide)

/-- C6 counterexample: a session-start failure in the scraper pipeline
is caught and logged inside `run`, so nothing is raised to the
caller. -/
theorem scraper_setup_error_not_raised :
    ¬ ∀ envs : List IterEnv, (scraperRun false envs).2.err ≠ none := by
  intro h
  exact h [] (by simp [scraperRun])

/-- C6 amended: in the enrichment pipeline a CSV-load failure or a
session-start failure aborts the run, is re-raised to the caller, and
the teardown block still runs with no session left open; in the scraper
pipeline a session-start failure aborts the run but is only logged
(nothing is re-raised), with the same teardown guarantee. -/
theorem run_failure_semantics (envs : List IterEnv) (records : List Record)
    (oracle : Nat → Option String × Option String) :
    (enricherRun false true records oracle).2 =
      { err := some RunErr.csvLoad, finallyRan := true, sessionOpen := false } ∧
    (enricherRun true false records oracle).2 =
      { err := some RunErr.sessionStart, finallyRan := true, sessionOpen := false } ∧
    (scraperRun false envs).2 =
      { err := none, finallyRan := true, sessionOpen := false } ∧
    (scraperRun true envs).2 =
      { err := none, finallyRan := true, sessionOpen := false } ∧
    (enricherRun true true records oracle).2 =
      { err := none, finallyRan := true, sessionOpen := false } := by
  exact ⟨by simp [enricherRun], by simp [enricherRun], by simp [scraperRun],
    by simp [scraperRun], by simp [enricherRun]⟩

/-- The flush positions produced by the enrichment loop started at
index `i` are exactly the multiples of 50 among the visited 1-indexed
positions. -/
theorem enrichLoop_flushes (oracle : Nat → Option String × Option String) :
    ∀ (rs : List Record) (i : Nat),
      (enrichLoop oracle rs i).2 =
        ((List.range rs.length).map (fun j => i + j + 1)).filter
          (fun p => p % 50 == 0) := by
  intro rs
  induction rs with
  | nil => intro i; simp [enrichLoop]
  | cons r rs ih =>
    intro i
    have hfun : ((fun j => i + j + 1) ∘ Nat.succ) = (fun j => (i + 1) + j + 1) := by
      funext j; simp [Function.comp]; omega
    simp only [enrichLoop, ih (i + 1), List.length_cons, List.range_succ_eq_map,
      List.map_cons, List.map_map, hfun, List.filter_cons, Nat.add_zero]
    by_cases h : (i + 1) % 50 == 0
    · simp [h]
    · simp [h]

/-- C7: during an enrichment run, an intermediate checkpoint flush
happens exactly after the records at 1-indexed positions 50, 100, 150,
and so on (up to the record count), and at no other position. -/
theorem checkpoint_cadence (records : List Record)
    (oracle : Nat → Option String × Option String) :
    (enrichRun records oracle).2 =
      ((List.range records.length).map (fun j => j + 1)).filter
        (fun p => p % 50 == 0) ∧
    ∀ p : Nat, p ∈ (enrichRun records oracle).2 ↔
      1 ≤ p ∧ p ≤ records.length ∧ p % 50 = 0 := by
  have h := enrichLoop_flushes oracle records 0
  have hfun : (fun j => 0 + j + 1) = (fun j => j + 1) := by funext j; omega
  rw [enrichRun] at *
  rw [h, hfun]
  refine ⟨rfl, fun p => ?_⟩
  simp only [List.mem_filter, List.mem_map, List.mem_range, beq_iff_eq]
  constructor
  · rintro ⟨⟨j, hj, rfl⟩, h50⟩
    omega
  · rintro ⟨h1, h2, h3⟩
    exact ⟨⟨p - 1, by omega, by omega⟩, by omega⟩

/-- C3 counterexample: two successive stale conditions produce two
recursive re-entries into `_process_current_page`; the re-entry depth is
not capped at one. -/
theorem stale_retry_depth_counterexample :
    ¬ ∀ (st : ScrapeState) (entries : List (List RowRes)),
      (process_current_page st entries).2 ≤ 1 := by
  intro h
  have h2 := h initState [[RowRes.stale], [RowRes.stale], []]
  have h3 : (process_current_page initState
      [[RowRes.stale], [RowRes.stale], []]).2 = 2 := by decide
  omega

/-- C3 amended: stale recovery recurses with no depth guard.  Every
stale condition for which a further row snapshot exists triggers another
full-page re-entry, so `n` successive stale snapshots produce re-entry
depth exactly `n`; the depth is unbounded over the possible
environments. -/
theorem stale_retry_depth_unbounded :
    ∀ (n : Nat) (st : ScrapeState),
      (process_current_page st (staleEntries n)).2 = n := by
  intro n
  induction n with
  | zero =>
    intro st
    simp [staleEntries, process_current_page, runSnapshots, runRows]
  | succ m ih =>
    intro st
    have hs : staleEntries (m + 1) = [RowRes.stale] :: staleEntries m := by
      simp [staleEntries, List.replicate_succ]
    obtain ⟨e, es, he⟩ : ∃ e es, staleEntries m = e :: es := by
      cases m with
      | zero => exact ⟨[], [], by simp [staleEntries]⟩
      | succ k =>
        exact ⟨[RowRes.stale], List.replicate k [RowRes.stale] ++ [[]],
          by simp [staleEntries, List.replicate_succ]⟩
    have hm := ih st
    rw [process_current_page, he] at hm
    rw [process_current_page, hs, he]
    simp only [runSnapshots, runRows]
    simp [hm]

/-- `processRow` never changes the page cursor. -/
theorem processRow_page (st : ScrapeState) (row : Row) :
    (processRow st row).current_page = st.current_page := by
  by_cases h : row.url ∈ st.processed_urls <;> simp [processRow, h]

/-- One clean snapshot pass is a fold of `processRow` and hits no stale
condition. -/
theorem runRows_clean :
    ∀ (rows : List Row) (st : ScrapeState),
      runRows st (rows.map RowRes.ok) = (rows.foldl processRow st, false) := by
  intro rows
  induction rows with
  | nil => intro st; rfl
  | cons r rs ih =>
    intro st
    simp only [List.map_cons, runRows, List.foldl_cons, ih]

/-- `_process_current_page` on a single clean snapshot is the fold of
`processRow` over the rows, with no recursive re-entry. -/
theorem process_current_page_clean (rows : List Row) (st : ScrapeState) :
    process_current_page st [rows.map RowRes.ok] = (rows.foldl processRow st, 0) := by
  rw [process_current_page]
  simp [runSnapshots, runRows_clean rows st]

/-- What one clean page pass does to the state: cursor unchanged,
processed urls become the union of the old ones and the page's urls, and
the stored records are extended by records whose page number is the
current cursor, whose url comes from this page and was unseen, and whose
contact fields are absent. -/
theorem foldl_processRow_spec :
    ∀ (rows : List Row) (st : ScrapeState),
      (rows.foldl processRow st).current_page = st.current_page ∧
      (∀ u, u ∈ (rows.foldl processRow st).processed_urls ↔
        u ∈ st.processed_urls ∨ u ∈ rows.map Row.url) ∧
      ∃ new, (rows.foldl processRow st).schools_data = st.schools_data ++ new ∧
        ∀ r ∈ new, r.page_number = st.current_page ∧ r.url ∈ rows.map Row.url ∧
          r.url ∉ st.processed_urls ∧ r.phone = FieldVal.nan ∧
          r.website = FieldVal.nan := by
  intro rows
  induction rows with
  | nil =>
    intro st
    exact ⟨rfl, fun u => by simp, [], by simp, by simp⟩
  | cons row rs ih =>
    intro st
    by_cases h : row.url ∈ st.processed_urls
    · have hst : processRow st row = st := by simp [processRow, h]
      simp only [List.foldl_cons, hst]
      obtain ⟨h1, h2, new, h3, h4⟩ := ih st
      refine ⟨h1, fun u => ?_, new, h3, fun r hr => ?_⟩
      · rw [h2 u]
        simp only [List.map_cons, List.mem_cons]
        constructor
        · rintro (hu | hu)
          · exact Or.inl hu
          · exact Or.inr (Or.inr hu)
        · rintro (hu | hu | hu)
          · exact Or.inl hu
          · exact Or.inl (hu ▸ h)
          · exact Or.inr hu
      · obtain ⟨p1, p2, p3, p4, p5⟩ := h4 r hr
        exact ⟨p1, by simp only [List.map_cons, List.mem_cons]; exact Or.inr p2,
          p3, p4, p5⟩
    · have hst : processRow st row =
          { st with
              schools_data := st.schools_data ++ [mkRecord row st.current_page],
              processed_urls := st.processed_urls ++ [row.url] } := by
        simp [processRow, h]
      simp only [List.foldl_cons, hst]
      obtain ⟨h1, h2, new, h3, h4⟩ :=
        ih { st with
              schools_data := st.schools_data ++ [mkRecord row st.current_page],
              processed_urls := st.processed_urls ++ [row.url] }
      refine ⟨h1, fun u => ?_, mkRecord row st.current_page :: new, ?_, fun r hr => ?_⟩
      · rw [h2 u]
        simp only [List.mem_append, List.mem_singleton, List.map_cons, List.mem_cons]
        tauto
      · rw [h3]
        simp
      · rcases List.mem_cons.1 hr with h5 | h5
        · subst h5
          exact ⟨rfl, by simp [mkRecord], by simpa [mkRecord] using h, rfl, rfl⟩
        · obtain ⟨p1, p2, p3, p4, p5⟩ := h4 r h5
          refine ⟨p1, by simp only [List.map_cons, List.mem_cons]; exact Or.inr p2,
            fun hx => p3 (List.mem_append.2 (Or.inl hx)), p4, p5⟩

/-- `processRow` preserves crawl-state well-formedness. -/
theorem processRow_good (st : ScrapeState) (row : Row) (h : GoodState st) :
    GoodState (processRow st row) := by
  obtain ⟨h1, h2⟩ := h
  by_cases hm : row.url ∈ st.processed_urls
  · have hst : processRow st row = st := by simp [processRow, hm]
    rw [hst]; exact ⟨h1, h2⟩
  · have hst : processRow st row =
        { st with
            schools_data := st.schools_data ++ [mkRecord row st.current_page],
            processed_urls := st.processed_urls ++ [row.url] } := by
      simp [processRow, hm]
    rw [hst]
    have hnotin : row.url ∉ st.schools_data.map Record.url := by
      intro hx
      obtain ⟨r, hr, hru⟩ := List.mem_map.1 hx
      exact hm (hru ▸ h2 r hr)
    constructor
    · have hmap : (st.schools_data ++ [mkRecord row st.current_page]).map Record.url
          = st.schools_data.map Record.url ++ [row.url] := by simp [mkRecord]
      rw [hmap]
      refine List.Nodup.append h1 (List.nodup_singleton _) ?_
      intro x hx hx'
      rw [List.mem_singleton] at hx'
      exact hnotin (hx' ▸ hx)
    · intro r hr
      rcases List.mem_append.1 hr with h5 | h5
      · exact List.mem_append.2 (Or.inl (h2 r h5))
      · rw [List.mem_singleton] at h5
        subst h5
        exact List.mem_append.2 (Or.inr (by simp [mkRecord]))

/-- Folding a clean page of rows preserves well-formedness. -/
theorem foldl_processRow_good :
    ∀ (rows : List Row) (st : ScrapeState), GoodState st →
      GoodState (rows.foldl processRow st) := by
  intro rows
  induction rows with
  | nil => intro st h; exact h
  | cons row rs ih =>
    intro st h
    exact ih (processRow st row) (processRow_good st row h)

/-- What the multi-page run does, relative to a well-formed start state:
well-formedness is preserved, and every record added during the run was
unseen at the start and carries the page cursor value of the page on
which its url first occurred in the fed sequence, with absent contact
fields. -/
theorem runPagesClean_spec :
    ∀ (pages : List (List Row)) (st : ScrapeState), GoodState st →
      GoodState (runPagesClean st pages) ∧
      ∃ new, (runPagesClean st pages).schools_data = st.schools_data ++ new ∧
        ∀ r ∈ new, r.url ∉ st.processed_urls ∧
          firstPage pages r.url st.current_page = some r.page_number ∧
          r.phone = FieldVal.nan ∧ r.website = FieldVal.nan := by
  intro pages
  induction pages with
  | nil =>
    intro st hst
    exact ⟨hst, [], by simp [runPagesClean], by simp⟩
  | cons p ps ih =>
    intro st hst
    have hrw : runPagesClean st (p :: ps)
        = runPagesClean (advanceCursor (p.foldl processRow st)) ps := by
      rw [runPagesClean, process_current_page_clean]
    obtain ⟨hcp, hp2, new1, hsch1, hprops1⟩ := foldl_processRow_spec p st
    have hg1 : GoodState (p.foldl processRow st) := foldl_processRow_good p st hst
    have hg2 : GoodState (advanceCursor (p.foldl processRow st)) := by
      obtain ⟨a, b⟩ := hg1; exact ⟨a, b⟩
    obtain ⟨hgf, new2, hsch2, hprops2⟩ := ih (advanceCursor (p.foldl processRow st)) hg2
    have hadv1 : (advanceCursor (p.foldl processRow st)).schools_data
        = (p.foldl processRow st).schools_data := rfl
    have hadv2 : (advanceCursor (p.foldl processRow st)).processed_urls
        = (p.foldl processRow st).processed_urls := rfl
    have hadv3 : (advanceCursor (p.foldl processRow st)).current_page
        = st.current_page + 1 := by
      simp [advanceCursor, hcp]
    refine ⟨by rw [hrw]; exact hgf, new1 ++ new2, ?_, fun r hr => ?_⟩
    · rw [hrw, hsch2, hadv1, hsch1, List.append_assoc]
    · rcases List.mem_append.1 hr with h5 | h5
      · obtain ⟨q1, q2, q3, q4, q5⟩ := hprops1 r h5
        refine ⟨q3, ?_, q4, q5⟩
        simp only [firstPage, if_pos q2, q1]
      · obtain ⟨q1, q2, q3, q4⟩ := hprops2 r h5
        rw [hadv2] at q1
        have hnotp : r.url ∉ st.processed_urls := fun hx =>
          q1 ((hp2 r.url).2 (Or.inl hx))
        have hnotpage : r.url ∉ p.map Row.url := fun hx =>
          q1 ((hp2 r.url).2 (Or.inr hx))
        refine ⟨hnotp, ?_, q3, q4⟩
        rw [hadv3] at q2
        simp only [firstPage, if_neg hnotpage]
        exact q2

/-- C2: across any sequence of pages of rows fed to the page-extraction
step, stored records have pairwise distinct urls, feeding a row whose
url is already processed leaves the state (hence the record count)
unchanged, and every stored record's page number is the page-cursor
value at the moment its url was first observed. -/
theorem dedup_across_pages (pages : List (List Row)) :
    ((runPagesClean initState pages).schools_data.map Record.url).Nodup ∧
    (∀ (st : ScrapeState) (row : Row),
      row.url ∈ st.processed_urls → processRow st row = st) ∧
    ∀ r ∈ (runPagesClean initState pages).schools_data,
      firstPage pages r.url 1 = some r.page_number := by
  have hinit : GoodState initState :=
    ⟨List.nodup_nil, fun r hr => by simp [initState] at hr⟩
  obtain ⟨⟨hnodup, _⟩, new, hsch, hprops⟩ := runPagesClean_spec pages initState hinit
  refine ⟨hnodup, fun st row h => by simp [processRow, h], fun r hr => ?_⟩
  rw [hsch] at hr
  simp only [initState, List.nil_append] at hr
  exact (hprops r hr).2.1

/-- Witness for C2 on the spec scenario feed (two pages of two rows, one
url duplicated): the record created from the duplicated-page feed on
page 2 carries first-observation page 2, and re-feeding a processed url
is a no-op. -/
theorem dedup_across_pages_witness :
    firstPage pagesW (mkRecord rowC 2).url 1 = some (mkRecord rowC 2).page_number ∧
    processRow stSeen rowB = stSeen := by
  constructor
  · exact (dedup_across_pages pagesW).2.2 (mkRecord rowC 2) (by decide)
  · exact (dedup_across_pages pagesW).2.1 stSeen rowB (by decide)

/-- `processRow` keeps the absent-contact-fields property. -/
theorem processRow_nan (st : ScrapeState) (row : Row) (h : NanFields st) :
    NanFields (processRow st row) := by
  by_cases hm : row.url ∈ st.processed_urls
  · have hst : processRow st row = st := by simp [processRow, hm]
    rw [hst]; exact h
  · have hst : (processRow st row).schools_data
        = st.schools_data ++ [mkRecord row st.current_page] := by
      simp [processRow, hm]
    intro r hr
    rw [hst] at hr
    rcases List.mem_append.1 hr with h5 | h5
    · exact h r h5
    · rw [List.mem_singleton] at h5
      subst h5
      exact ⟨rfl, rfl⟩

/-- One snapshot pass keeps the absent-contact-fields property. -/
theorem runRows_nan :
    ∀ (rows : List RowRes) (st : ScrapeState), NanFields st →
      NanFields (runRows st rows).1 := by
  intro rows
  induction rows with
  | nil => intro st h; exact h
  | cons hd tl ih =>
    intro st h
    cases hd with
    | ok row => exact ih (processRow st row) (processRow_nan st row h)
    | stale => exact h
    | rowErr => exact ih st h

/-- The whole stale-recovery recursion keeps the absent-contact-fields
property. -/
theorem runSnapshots_nan :
    ∀ (entries : List (List RowRes)) (st : ScrapeState), NanFields st →
      NanFields (runSnapshots st entries).1 := by
  intro entries
  induction entries with
  | nil => intro st h; exact h
  | cons e es ih =>
    intro st h
    have hr := runRows_nan e st h
    rw [runSnapshots.eq_def]
    cases hb : (runRows st e).2 with
    | false => simpa [hb] using hr
    | true =>
      cases es with
      | nil => simpa [hb] using hr
      | cons e' es' =>
        have := ih (runRows st e).1 hr
        simpa [hb] using this

/-- The pagination loop keeps the absent-contact-fields property. -/
theorem get_table_data_nan :
    ∀ (envs : List IterEnv) (st : ScrapeState), NanFields st →
      NanFields (get_table_data st envs).1 := by
  intro envs
  induction envs with
  | nil => intro st h; exact h
  | cons env rest ih =>
    intro st h
    have h1 : NanFields (process_current_page st env.entries).1 :=
      runSnapshots_nan env.entries st h
    have h2 : NanFields { (process_current_page st env.entries).1 with
        current_page := (process_current_page st env.entries).1.current_page + 1 } :=
      fun r hr => h1 r hr
    rw [get_table_data.eq_def]
    cases hn : env.next with
    | absent => simpa [hn] using h1
    | disabled => simpa [hn] using h1
    | enabled =>
      cases hc : click_with_retry env.click 3 with
      | exhausted s => simpa [hn, hc] using h1
      | success s => simpa [hn, hc] using ih _ h2
      | fellThrough s => simpa [hn, hc] using ih _ h2

/-- C10: every record appended by the listing crawler, over any
environment, has both contact fields set to the absent value; only the
enrichment merge can populate them. -/
theorem crawler_contact_fields_absent (envs : List IterEnv) :
    ∀ r ∈ (get_table_data initState envs).1.schools_data,
      r.phone = FieldVal.nan ∧ r.website = FieldVal.nan :=
  get_table_data_nan envs initState (fun r hr => by simp [initState] at hr)

/-- Witness for C10: the record produced from a concrete one-row crawl
has absent contact fields. -/
theorem crawler_contact_fields_absent_witness :
    (mkRecord rowA 1).phone = FieldVal.nan ∧
    (mkRecord rowA 1).website = FieldVal.nan :=
  crawler_contact_fields_absent [envLast] (mkRecord rowA 1) (by decide)

/-- Pagination iteration with an absent next button: extraction still
runs, then the loop breaks on the last-page path. -/
theorem gtd_absent (st : ScrapeState) (env : IterEnv) (rest : List IterEnv)
    (hn : env.next = NextBtn.absent) :
    get_table_data st (env :: rest) =
      ((process_current_page st env.entries).1,
        [CrawlAct.waitRows env.rowsAppear, CrawlAct.extractPage, CrawlAct.checkNext],
        LoopExit.lastPage) := by
  rw [get_table_data.eq_def]
  simp [hn]

/-- Pagination iteration with a disabled next button: extraction still
runs, then the loop breaks on the last-page path. -/
theorem gtd_disabled (st : ScrapeState) (env : IterEnv) (rest : List IterEnv)
    (hn : env.next = NextBtn.disabled) :
    get_table_data st (env :: rest) =
      ((process_current_page st env.entries).1,
        [CrawlAct.waitRows env.rowsAppear, CrawlAct.extractPage, CrawlAct.checkNext],
        LoopExit.lastPage) := by
  rw [get_table_data.eq_def]
  simp [hn]

/-- Pagination iteration whose click protocol exhausts: the raised error
is caught by the loop's handler, which logs and breaks. -/
theorem gtd_exhausted (st : ScrapeState) (env : IterEnv) (rest : List IterEnv)
    (s : Nat) (hn : env.next = NextBtn.enabled)
    (hc : click_with_retry env.click 3 = ClickRes.exhausted s) :
    get_table_data st (env :: rest) =
      ((process_current_page st env.entries).1,
        [CrawlAct.waitRows env.rowsAppear, CrawlAct.extractPage, CrawlAct.checkNext,
          CrawlAct.clickNext],
        LoopExit.caughtError) := by
  rw [get_table_data.eq_def]
  simp [hn, hc]

/-- Pagination iteration whose click protocol does not exhaust: the page
cursor is incremented once and the loop continues on the remaining
environments. -/
theorem gtd_advance (st : ScrapeState) (env : IterEnv) (rest : List IterEnv)
    (hn : env.next = NextBtn.enabled)
    (hc : ∀ s, click_with_retry env.click 3 ≠ ClickRes.exhausted s) :
    get_table_data st (env :: rest) =
      ((get_table_data
          { (process_current_page st env.entries).1 with
            current_page := (process_current_page st env.entries).1.current_page + 1 }
          rest).1,
        [CrawlAct.waitRows env.rowsAppear, CrawlAct.extractPage, CrawlAct.checkNext,
          CrawlAct.clickNext, CrawlAct.incPage] ++
          (get_table_data
            { (process_current_page st env.entries).1 with
              current_page := (process_current_page st env.entries).1.current_page + 1 }
            rest).2.1,
        (get_table_data
          { (process_current_page st env.entries).1 with
            current_page := (process_current_page st env.entries).1.current_page + 1 }
          rest).2.2) := by
  rw [get_table_data.eq_def]
  cases hc' : click_with_retry env.click 3 with
  | success s => simp [hn, hc']
  | fellThrough s => simp [hn, hc']
  | exhausted s => exact absurd hc' (hc s)

/-- `countInc` distributes over append. -/
theorem countInc_append :
    ∀ (a b : List CrawlAct), countInc (a ++ b) = countInc a + countInc b := by
  intro a b
  induction a with
  | nil => simp [countInc]
  | cons hd tl ih => cases hd <;> simp [countInc, ih, Nat.add_right_comm]

/-- The row loop never changes the page cursor. -/
theorem runRows_page :
    ∀ (rows : List RowRes) (st : ScrapeState),
      (runRows st rows).1.current_page = st.current_page := by
  intro rows
  induction rows with
  | nil => intro st; rfl
  | cons hd tl ih =>
    intro st
    cases hd with
    | ok row =>
      show (runRows (processRow st row) tl).1.current_page = st.current_page
      rw [ih (processRow st row), processRow_page]
    | stale => rfl
    | rowErr => exact ih st

/-- The stale-recovery recursion never changes the page cursor. -/
theorem runSnapshots_page :
    ∀ (entries : List (List RowRes)) (st : ScrapeState),
      (runSnapshots st entries).1.current_page = st.current_page := by
  intro entries
  induction entries with
  | nil => intro st; rfl
  | cons e es ih =>
    intro st
    rw [runSnapshots.eq_def]
    cases hb : (runRows st e).2 with
    | false => simpa [hb] using runRows_page e st
    | true =>
      cases es with
      | nil => simpa [hb] using runRows_page e st
      | cons e' es' =>
        have h1 := ih (runRows st e).1
        have h2 := runRows_page e st
        simp only [hb, if_true]
        simpa [h1] using h2

/-- The final page cursor exceeds the starting one by exactly the number
of `incPage` steps in the trace: the counter is incremented exactly once
per successful advance and never otherwise. -/
theorem get_table_data_page_count :
    ∀ (envs : List IterEnv) (st : ScrapeState),
      (get_table_data st envs).1.current_page =
        st.current_page + countInc (get_table_data st envs).2.1 := by
  intro envs
  induction envs with
  | nil => intro st; simp [get_table_data, countInc]
  | cons env rest ih =>
    intro st
    have hpg : (process_current_page st env.entries).1.current_page = st.current_page :=
      runSnapshots_page env.entries st
    cases hn : env.next with
    | absent => rw [gtd_absent st env rest hn]; simp [countInc, hpg]
    | disabled => rw [gtd_disabled st env rest hn]; simp [countInc, hpg]
    | enabled =>
      cases hc : click_with_retry env.click 3 with
      | exhausted s => rw [gtd_exhausted st env rest s hn hc]; simp [countInc, hpg]
      | success s =>
        rw [gtd_advance st env rest hn (by simp [hc])]
        have hih := ih { (process_current_page st env.entries).1 with
          current_page := (process_current_page st env.entries).1.current_page + 1 }
        rw [hih]
        simp [countInc, countInc_append, hpg]
        omega
      | fellThrough s =>
        rw [gtd_advance st env rest hn (by simp [hc])]
        have hih := ih { (process_current_page st env.entries).1 with
          current_page := (process_current_page st env.entries).1.current_page + 1 }
        rw [hih]
        simp [countInc, countInc_append, hpg]
        omega

/-- All three attempts failing raises the last error after exactly two
backoffs. -/
theorem click_all_fail (outcome : Nat → Bool)
    (h : ∀ i, i < 3 → outcome i = false) :
    click_with_retry outcome 3 = ClickRes.exhausted 2 := by
  have h0 := h 0 (by omega)
  have h1 := h 1 (by omega)
  have h2 := h 2 (by omega)
  simp [click_with_retry, clickGo, h0, h1, h2]

/-- A first success on attempt `j` (0-based, within the three attempts)
returns success after `j` backoffs. -/
theorem click_first_success (outcome : Nat → Bool) (j : Nat) (hj : j < 3)
    (hs : outcome j = true) (hf : ∀ i, i < j → outcome i = false) :
    click_with_retry outcome 3 = ClickRes.success j := by
  interval_cases j
  · simp [click_with_retry, clickGo, hs]
  · have h0 := hf 0 (by omega)
    simp [click_with_retry, clickGo, h0, hs]
  · have h0 := hf 0 (by omega)
    have h1 := hf 1 (by omega)
    simp [click_with_retry, clickGo, h0, h1, hs]

/-- C4 counterexample: when the row-presence wait finds nothing
(`rowsAppear = false`), the loop still extracts the page and still
clicks the next-page control, contradicting the fatal-stop claim. -/
theorem no_rows_still_extracts_counterexample :
    ¬ ∀ (st : ScrapeState) (env : IterEnv) (rest : List IterEnv),
      env.rowsAppear = false →
      CrawlAct.extractPage ∉ (get_table_data st (env :: rest)).2.1 ∧
      CrawlAct.clickNext ∉ (get_table_data st (env :: rest)).2.1 := by
  intro h
  have h2 := h initState envNoRows [] rfl
  exact absurd h2 (by decide)

/-- C4 amended: the row-presence wait's result is discarded.  Every
iteration performs the wait, the page extraction and the next-button
check in that order, whatever the wait returned, and the resulting state
and loop exit are independent of whether a row appeared within the
timeout. -/
theorem wait_result_discarded (st : ScrapeState) (env : IterEnv)
    (rest : List IterEnv) :
    (∃ t, (get_table_data st (env :: rest)).2.1 =
      CrawlAct.waitRows env.rowsAppear :: CrawlAct.extractPage ::
        CrawlAct.checkNext :: t) ∧
    ∀ b : Bool,
      (get_table_data st ({ env with rowsAppear := b } :: rest)).1 =
        (get_table_data st (env :: rest)).1 ∧
      (get_table_data st ({ env with rowsAppear := b } :: rest)).2.2 =
        (get_table_data st (env :: rest)).2.2 := by
  cases hn : env.next with
  | absent =>
    rw [gtd_absent st env rest hn]
    refine ⟨⟨[], rfl⟩, fun b => ?_⟩
    rw [gtd_absent st
      { rowsAppear := b, entries := env.entries, next := NextBtn.absent,
        click := env.click } rest rfl]
    exact ⟨rfl, rfl⟩
  | disabled =>
    rw [gtd_disabled st env rest hn]
    refine ⟨⟨[], rfl⟩, fun b => ?_⟩
    rw [gtd_disabled st
      { rowsAppear := b, entries := env.entries, next := NextBtn.disabled,
        click := env.click } rest rfl]
    exact ⟨rfl, rfl⟩
  | enabled =>
    cases hc : click_with_retry env.click 3 with
    | exhausted s =>
      rw [gtd_exhausted st env rest s hn hc]
      refine ⟨⟨[CrawlAct.clickNext], rfl⟩, fun b => ?_⟩
      rw [gtd_exhausted st
        { rowsAppear := b, entries := env.entries, next := NextBtn.enabled,
          click := env.click } rest s rfl hc]
      exact ⟨rfl, rfl⟩
    | success s =>
      rw [gtd_advance st env rest hn (by simp [hc])]
      refine ⟨⟨CrawlAct.clickNext :: CrawlAct.incPage ::
        (get_table_data
          { (process_current_page st env.entries).1 with
            current_page := (process_current_page st env.entries).1.current_page + 1 }
          rest).2.1, rfl⟩, fun b => ?_⟩
      rw [gtd_advance st
        { rowsAppear := b, entries := env.entries, next := NextBtn.enabled,
          click := env.click } rest rfl (by simp [hc])]
      exact ⟨rfl, rfl⟩
    | fellThrough s =>
      rw [gtd_advance st env rest hn (by simp [hc])]
      refine ⟨⟨CrawlAct.clickNext :: CrawlAct.incPage ::
        (get_table_data
          { (process_current_page st env.entries).1 with
            current_page := (process_current_page st env.entries).1.current_page + 1 }
          rest).2.1, rfl⟩, fun b => ?_⟩
      rw [gtd_advance st
        { rowsAppear := b, entries := env.entries, next := NextBtn.enabled,
          click := env.click } rest rfl (by simp [hc])]
      exact ⟨rfl, rfl⟩

/-- C5 counterexample: when the click protocol exhausts its three
attempts, the raised error is caught inside `get_table_data` (exit
`caughtError`), not re-raised to the loop's caller. -/
theorem retry_exhaustion_not_propagated :
    ¬ ∀ (st : ScrapeState) (env : IterEnv) (rest : List IterEnv),
      env.next = NextBtn.enabled →
      (∀ i, i < 3 → env.click i = false) →
      (get_table_data st (env :: rest)).2.2 = LoopExit.propagated := by
  intro h
  have h2 := h initState envFail [] rfl (fun i _ => rfl)
  exact absurd h2 (by decide)

/-- C5 amended: exhausting the three click attempts (with a backoff
after each of the two non-final failures) raises the last error into the
pagination loop, where it is caught and logged and the loop breaks with
the partial state retained — it is not re-raised past `get_table_data`;
a first success on attempt `j` returns success after `j` backoffs, and
the page counter increments exactly once per successful advance (it
equals the start value plus the number of `incPage` steps in the
trace). -/
theorem click_retry_semantics :
    (∀ outcome : Nat → Bool, (∀ i, i < 3 → outcome i = false) →
      click_with_retry outcome 3 = ClickRes.exhausted 2) ∧
    (∀ (outcome : Nat → Bool) (j : Nat), j < 3 → outcome j = true →
      (∀ i, i < j → outcome i = false) →
      click_with_retry outcome 3 = ClickRes.success j) ∧
    (∀ (st : ScrapeState) (env : IterEnv) (rest : List IterEnv),
      env.next = NextBtn.enabled → (∀ i, i < 3 → env.click i = false) →
      (get_table_data st (env :: rest)).2.2 = LoopExit.caughtError ∧
      (get_table_data st (env :: rest)).1 =
        (process_current_page st env.entries).1) ∧
    (∀ (st : ScrapeState) (envs : List IterEnv),
      (get_table_data st envs).1.current_page =
        st.current_page + countInc (get_table_data st envs).2.1) := by
  refine ⟨click_all_fail, click_first_success, fun st env rest hn hf => ?_,
    fun st envs => get_table_data_page_count envs st⟩
  rw [gtd_exhausted st env rest 2 hn (click_all_fail env.click hf)]
  exact ⟨rfl, rfl⟩

/-- Witness for the amended C5 at concrete click outcomes and a concrete
exhausting environment. -/
theorem click_retry_semantics_witness :
    click_with_retry (fun _ => false) 3 = ClickRes.exhausted 2 ∧
    click_with_retry (fun i => i == 2) 3 = ClickRes.success 2 ∧
    (get_table_data initState [envFail]).2.2 = LoopExit.caughtError := by
  refine ⟨click_retry_semantics.1 (fun _ => false) (fun i _ => rfl),
    click_retry_semantics.2.1 (fun i => i == 2) 2 (by omega) rfl ?_,
    (click_retry_semantics.2.2.1 initState envFail [] rfl (fun i _ => rfl)).1⟩
  intro i hi
  interval_cases i <;> rfl
